import Mathlib

/-
Verification of the movie catalog data-access layer (crud.py) against its
natural-language specification. The CRUD operations are embedded as pure
functions over an explicit store state; SQL queries become list filters,
ORDER BY becomes a stable insertion sort on the query key, and the legacy ORM
uniquing of full-entity result rows becomes an id-based first-occurrence
deduplication.
-/

namespace MovieCatalog

/-- Modelled from the spec: a calendar date; the repository model file is not
under src, and only the year component is observed by any query
(the birth-year filter extracts the year of the birthdate). -/
structure Date where
  year : Int
  month : Nat
  day : Nat
deriving DecidableEq, Repr

/-- Modelled from the spec: persisted Person relation Person(id, name,
birthdate), section 6 of the spec; the model file of the repository is not
under src. -/
structure Star where
  id : Nat
  name : String
  birthdate : Option Date
deriving DecidableEq, Repr

/-- Modelled from the spec: persisted Film relation Film(id, title, year,
duration, director_id nullable), section 6 of the spec; the model file of the
repository is not under src. -/
structure Movie where
  id : Nat
  title : String
  year : Int
  duration : Option Nat
  directorId : Option Nat
deriving DecidableEq, Repr

/-- Modelled from the spec: the persistent store, holding the two primary
relations and the join relation Cast(film_id, person_id), which carries no
uniqueness constraint on the pair, so duplicate rows are representable.
Row order is the natural order of the store. -/
structure DB where
  movies : List Movie
  stars : List Star
  cast : List (Nat × Nat)
deriving DecidableEq, Repr

/-! ## SQL LIKE matching

The source builds LIKE patterns of exactly two shapes: a value wrapped in
two percent signs (containment) and a value preceded by one percent sign
(suffix). We embed the two shapes directly on character lists. -/

/-- pat matches at the start of s: pat is an initial segment of s. -/
def matchesAt : List Char → List Char → Bool
  | _, [] => true
  | [], _ :: _ => false
  | c :: s, d :: p => (c == d) && matchesAt s p

/-- s holds pat as a contiguous segment somewhere. -/
def containsSub (pat : List Char) : List Char → Bool
  | [] => matchesAt [] pat
  | c :: t => matchesAt (c :: t) pat || containsSub pat t

/-- s ends with pat. -/
def endsWithSub (pat s : List Char) : Bool :=
  matchesAt s.reverse pat.reverse

/-- LIKE with the value wrapped in two percent signs: containment. -/
def likeAround (pat s : String) : Bool := containsSub pat.data s.data

/-- LIKE with the value preceded by one percent sign: suffix. -/
def likeEnd (pat s : String) : Bool := endsWithSub pat.data s.data

theorem matchesAt_iff (s p : List Char) :
    matchesAt s p = true ↔ ∃ t, s = p ++ t := by
  induction s generalizing p with
  | nil =>
    cases p with
    | nil => simp [matchesAt]
    | cons d q => simp [matchesAt]
  | cons c s ih =>
    cases p with
    | nil => simp [matchesAt]
    | cons d q =>
      simp only [matchesAt, Bool.and_eq_true, beq_iff_eq, ih, List.cons_append,
        List.cons.injEq]
      constructor
      · rintro ⟨rfl, t, rfl⟩; exact ⟨t, rfl, rfl⟩
      · rintro ⟨t, rfl, rfl⟩; exact ⟨rfl, t, rfl⟩

theorem containsSub_iff (p s : List Char) :
    containsSub p s = true ↔ ∃ l r, s = l ++ p ++ r := by
  induction s with
  | nil =>
    simp only [containsSub, matchesAt_iff]
    constructor
    · rintro ⟨t, ht⟩
      exact ⟨[], t, by simpa using ht⟩
    · rintro ⟨l, r, h⟩
      obtain ⟨-, h2, h3⟩ : l = [] ∧ p = [] ∧ r = [] := by simpa using h.symm
      exact ⟨r, by simp [h2, h3]⟩
  | cons c t ih =>
    simp only [containsSub, Bool.or_eq_true, matchesAt_iff, ih]
    constructor
    · rintro (⟨r, hr⟩ | ⟨l, r, rfl⟩)
      · exact ⟨[], r, by simpa using hr⟩
      · exact ⟨c :: l, r, by simp⟩
    · rintro ⟨l, r, h⟩
      cases l with
      | nil => exact Or.inl ⟨r, by simpa using h⟩
      | cons x l =>
        right
        refine ⟨l, r, ?_⟩
        simpa using (List.cons.injEq .. ▸ h :
          c = x ∧ t = l ++ p ++ r).2

theorem endsWithSub_iff (p s : List Char) :
    endsWithSub p s = true ↔ ∃ l, s = l ++ p := by
  unfold endsWithSub
  rw [matchesAt_iff]
  constructor
  · rintro ⟨t, ht⟩
    refine ⟨t.reverse, ?_⟩
    have := congrArg List.reverse ht
    simpa using this
  · rintro ⟨l, rfl⟩
    exact ⟨l.reverse, by simp⟩

/-! ## Generic query building blocks -/

/-- first-occurrence deduplication by key, the uniquing that the legacy ORM
query layer applies to full-entity result rows. -/
def uniqueByAux {α β : Type} [DecidableEq β] (f : α → β) (seen : List β) :
    List α → List α
  | [] => []
  | a :: t =>
    if f a ∈ seen then uniqueByAux f seen t
    else a :: uniqueByAux f (f a :: seen) t

/-- entity rows deduplicated by key, keeping first occurrences. -/
def uniqueBy {α β : Type} [DecidableEq β] (f : α → β) (l : List α) : List α :=
  uniqueByAux f [] l

/-- replace the first element satisfying p, the effect of mutating the row
object returned by a first() query and committing. -/
def setFirst {α : Type} (p : α → Bool) (v : α) : List α → List α
  | [] => []
  | a :: t => if p a then v :: t else a :: setFirst p v t

/-! ## Movie CRUD (crud.py, MOVIES section) -/

/-- get_movies: offset and limit pagination over the natural order, with the
source defaults skip=0 and limit=100. -/
def get_movies (db : DB) (skip : optParam Nat 0) (limit : optParam Nat 100) : List Movie :=
  (db.movies.drop skip).take limit

/-- get_movie: first row whose id matches, absent otherwise. -/
def get_movie (db : DB) (movie_id : Nat) : Option Movie :=
  (db.movies.filter (fun m => m.id == movie_id)).head?

/-- get_movies_by_title: equality filter on the title, ordered by year
ascending. -/
def get_movies_by_title (db : DB) (title : String) : List Movie :=
  List.insertionSort (fun a b => a.year ≤ b.year)
    (db.movies.filter (fun m => m.title == title))

/-- get_movies_by_parttitle: LIKE containment filter on the title, ordered by
year ascending. -/
def get_movies_by_parttitle (db : DB) (title : String) : List Movie :=
  List.insertionSort (fun a b => a.year ≤ b.year)
    (db.movies.filter (fun m => likeAround title m.title))

/-- get_movies_by_range_year: absent when both bounds are absent, otherwise
the films meeting every present inclusive bound, in natural order. -/
def get_movies_by_range_year (db : DB) (year_min year_max : Option Int) :
    Option (List Movie) :=
  match year_min, year_max with
  | none, none => none
  | none, some ymax =>
      some (db.movies.filter (fun m => decide (m.year ≤ ymax)))
  | some ymin, none =>
      some (db.movies.filter (fun m => decide (ymin ≤ m.year)))
  | some ymin, some ymax =>
      some (db.movies.filter
        (fun m => decide (ymin ≤ m.year) && decide (m.year ≤ ymax)))

/-- scalar payload of a full-replace movie update (schemas.Movie: id plus all
scalar fields, no relationships). -/
structure MovieUpd where
  id : Nat
  title : String
  year : Int
  duration : Option Nat
deriving DecidableEq, Repr

/-- update_movie: absent and no write when the id is missing; otherwise
overwrite the scalar fields of the matched row and commit. The director link
is not touched by the scalar update. -/
def update_movie (db : DB) (movie : MovieUpd) : Option Movie × DB :=
  match (db.movies.filter (fun m => m.id == movie.id)).head? with
  | none => (none, db)
  | some m0 =>
    let m1 : Movie :=
      { m0 with title := movie.title, year := movie.year,
                duration := movie.duration }
    (some m1, { db with movies := setFirst (fun m => m.id == movie.id) m1 db.movies })

/-- delete_movie: absent and no write when the id is missing; otherwise remove
the matched row (the ORM also removes the association rows of the deleted
film) and return its state before removal. -/
def delete_movie (db : DB) (movie_id : Nat) : Option Movie × DB :=
  match (db.movies.filter (fun m => m.id == movie_id)).head? with
  | none => (none, db)
  | some m0 =>
    (some m0,
      { db with
          movies := db.movies.eraseP (fun m => m.id == movie_id),
          cast := db.cast.filter (fun c => !(c.1 == movie_id)) })

/-! ## Star CRUD (crud.py, STARS section) -/

/-- get_star: first row whose id matches, absent otherwise. -/
def get_star (db : DB) (star_id : Nat) : Option Star :=
  (db.stars.filter (fun s => s.id == star_id)).head?

/-- get_stars: offset and limit pagination over the natural order, with the
source defaults skip=0 and limit=100. -/
def get_stars (db : DB) (skip : optParam Nat 0) (limit : optParam Nat 100) : List Star :=
  (db.stars.drop skip).take limit

/-- get_stars_by_name: equality filter on the name, ordered by name
ascending. -/
def get_stars_by_name (db : DB) (name : String) : List Star :=
  List.insertionSort (fun a b => a.name ≤ b.name)
    (db.stars.filter (fun s => s.name == name))

/-- get_stars_by_partname: LIKE containment filter on the name, ordered by
name ascending. -/
def get_stars_by_partname (db : DB) (name : String) : List Star :=
  List.insertionSort (fun a b => a.name ≤ b.name)
    (db.stars.filter (fun s => likeAround name s.name))

/-- get_stars_by_birthyear: equality filter on the extracted year of the
birthdate (a null birthdate never matches), ordered by name ascending. -/
def get_stars_by_birthyear (db : DB) (year : Int) : List Star :=
  List.insertionSort (fun a b => a.name ≤ b.name)
    (db.stars.filter (fun s =>
      match s.birthdate with
      | some d => d.year == year
      | none => false))

/-- scalar payload of a full-replace star update (schemas.Star). -/
structure StarUpd where
  id : Nat
  name : String
  birthdate : Option Date
deriving DecidableEq, Repr

/-- update_star: absent and no write when the id is missing; otherwise
overwrite the scalar fields of the matched row and commit. -/
def update_star (db : DB) (star : StarUpd) : Option Star × DB :=
  match (db.stars.filter (fun s => s.id == star.id)).head? with
  | none => (none, db)
  | some s0 =>
    let s1 : Star := { s0 with name := star.name, birthdate := star.birthdate }
    (some s1, { db with stars := setFirst (fun s => s.id == star.id) s1 db.stars })

/-- delete_star: absent and no write when the id is missing; otherwise remove
the matched row and return its state before removal. Cascade behavior for
dangling director or cast references is undefined in the source, so the
references are left in place. -/
def delete_star (db : DB) (star_id : Nat) : Option Star × DB :=
  match (db.stars.filter (fun s => s.id == star_id)).head? with
  | none => (none, db)
  | some s0 =>
    (some s0, { db with stars := db.stars.eraseP (fun s => s.id == star_id) })

/-! ## Directors and actors (crud.py, DIRECTORS & ACTORS section) -/

/-- inner-join rows of films with their director person: one row per film
and per star matching its director id. -/
def directorRows (db : DB) : List (Movie × Star) :=
  db.movies.flatMap (fun m =>
    (db.stars.filter (fun s => m.directorId == some s.id)).map (fun s => (m, s)))

/-- inner-join rows of films with their cast members: one row per film, per
association row of that film, and per star matching the association. -/
def castRows (db : DB) : List (Movie × Star) :=
  db.movies.flatMap (fun m =>
    (db.cast.filter (fun c => c.1 == m.id)).flatMap (fun c =>
      (db.stars.filter (fun s => s.id == c.2)).map (fun s => (m, s))))

/-- get_movies_by_director_endname: join films to their director, keep rows
whose director name ends with the value (LIKE with one leading percent
sign), order by film year descending, return the film entities uniqued. -/
def get_movies_by_director_endname (db : DB) (endname : String) : List Movie :=
  uniqueBy (fun m => m.id)
    ((List.insertionSort (fun a b => b.1.year ≤ a.1.year)
      ((directorRows db).filter (fun r => likeEnd endname r.2.name))).map
      (fun r => r.1))

/-- get_movies_by_actor_endname: join films to their cast, keep rows whose
actor name ends with the value, order by film year descending, return the
film entities uniqued. -/
def get_movies_by_actor_endname (db : DB) (endname : String) : List Movie :=
  uniqueBy (fun m => m.id)
    ((List.insertionSort (fun a b => b.1.year ≤ a.1.year)
      ((castRows db).filter (fun r => likeEnd endname r.2.name))).map
      (fun r => r.1))

/-- get_director_by_movie_id: the source takes first() of the film filtered
and joined to its director and dereferences the director attribute without a
guard; when the join yields no row the dereference of the absent row raises,
embedded here as an error value. -/
def get_director_by_movie_id (db : DB) (movie_id : Nat) : Except Unit Star :=
  match ((directorRows db).filter (fun r => r.1.id == movie_id)).head? with
  | none => Except.error ()
  | some r => Except.ok r.2

/-- Modelled from the spec: the guarded director lookup the spec mandates
(film found and director set yield the person, every other case yields an
absent value as data); the source version above lacks the guard. -/
def get_director_guarded (db : DB) (movie_id : Nat) : Option Star :=
  match get_movie db movie_id with
  | none => none
  | some m =>
    match m.directorId with
    | none => none
    | some did => get_star db did

/-- get_actors_by_movie_endname: join stars to the films of their cast rows,
keep rows whose film title holds the value (LIKE with a percent sign on both
sides), order by film year descending, return the star entities uniqued. -/
def get_actors_by_movie_endname (db : DB) (endname : String) : List Star :=
  uniqueBy (fun s => s.id)
    ((List.insertionSort (fun a b => b.1.year ≤ a.1.year)
      ((castRows db).filter (fun r => likeAround endname r.1.title))).map
      (fun r => r.2))

/-- get_actors_by_movie_id: join stars to the films of their cast rows, keep
rows of the given film id, order by film year descending, return the star
entities uniqued. -/
def get_actors_by_movie_id (db : DB) (movie_id : Nat) : List Star :=
  uniqueBy (fun s => s.id)
    ((List.insertionSort (fun a b => b.1.year ≤ a.1.year)
      ((castRows db).filter (fun r => r.1.id == movie_id))).map
      (fun r => r.2))

/-- update_movie_director: both ids must resolve, otherwise absent and no
write; then set the director reference of the film row and commit. -/
def update_movie_director (db : DB) (movie_id director_id : Nat) :
    Option Movie × DB :=
  match get_movie db movie_id, get_star db director_id with
  | some m0, some s0 =>
    let m1 : Movie := { m0 with directorId := some s0.id }
    (some m1,
      { db with movies := setFirst (fun m => m.id == movie_id) m1 db.movies })
  | _, _ => (none, db)

/-- add_movie_actor: both ids must resolve, otherwise absent and no write;
then append one association row, with no deduplication, and commit. -/
def add_movie_actor (db : DB) (movie_id star_id : Nat) : Option Movie × DB :=
  match get_movie db movie_id, get_star db star_id with
  | some m0, some s0 =>
    (some m0, { db with cast := db.cast ++ [(movie_id, s0.id)] })
  | _, _ => (none, db)

/-- update_movie_actors: the new cast is the list of stored stars whose id is
in the given list (an IN filter over the star relation, so each matching star
row occurs once however often its id repeats in the input, and ids matching
no star are dropped); absent and no write when the film id is missing;
otherwise replace every association row of the film and commit. -/
def update_movie_actors (db : DB) (movie_id : Nat) (star_ids : List Nat) :
    Option Movie × DB :=
  let resolved := db.stars.filter (fun s => star_ids.contains s.id)
  match get_movie db movie_id with
  | none => (none, db)
  | some m0 =>
    (some m0,
      { db with
          cast := db.cast.filter (fun c => !(c.1 == movie_id)) ++
                  resolved.map (fun s => (movie_id, s.id)) })

/-- stored cast of a film: the stars matched by its association rows, in row
order. -/
def castStars (db : DB) (movie_id : Nat) : List Star :=
  (db.cast.filter (fun c => c.1 == movie_id)).flatMap (fun c =>
    db.stars.filter (fun s => s.id == c.2))

/-! ## Statistics (crud.py, STATISTICS section) -/

/-- get_movies_count: number of film rows. -/
def get_movies_count (db : DB) : Nat := db.movies.length

/-- get_movies_count_year: number of film rows of the exact year. -/
def get_movies_count_year (db : DB) (year : Int) : Nat :=
  (db.movies.filter (fun m => m.year == year)).length

/-- get_stars_count: number of person rows. -/
def get_stars_count (db : DB) : Nat := db.stars.length

/-- distinct years present among the films, ascending. -/
def movieYears (db : DB) : List Int :=
  List.insertionSort (fun a b => a ≤ b)
    ((db.movies.map (fun m => m.year)).dedup)

/-- get_movies_count_by_year: one group per distinct year, ascending, with
the row count of the group. -/
def get_movies_count_by_year (db : DB) : List (Int × Nat) :=
  (movieYears db).map (fun y =>
    (y, (db.movies.filter (fun m => m.year == y)).length))

/-- durations of the films of one year that have a duration set; null
durations are skipped by the SQL aggregates. -/
def durationsOfYear (db : DB) (y : Int) : List Nat :=
  (db.movies.filter (fun m => m.year == y)).filterMap (fun m => m.duration)

/-- one group row of the duration statistics: the year, the row count of
the group (counting every row, a null duration included) and the minimum,
maximum and average of the non-null durations (null when the group has no
non-null duration, as the SQL aggregates of an all-null group are null). -/
def yearStats (db : DB) (y : Int) :
    Int × Nat × Option Nat × Option Nat × Option Rat :=
  let g := db.movies.filter (fun m => m.year == y)
  let ds := g.filterMap (fun m => m.duration)
  (y, g.length, ds.min?, ds.max?,
    if ds.isEmpty then none
    else some (((ds.sum : Nat) : Rat) / ((ds.length : Nat) : Rat)))

/-- get_movies_stats_by_year: one group per distinct year, ascending by
year, each group aggregated by yearStats. -/
def get_movies_stats_by_year (db : DB) :
    List (Int × Nat × Option Nat × Option Nat × Option Rat) :=
  (movieYears db).map (yearStats db)

/-- number of films whose director reference points at the given star. -/
def directedCount (db : DB) (s : Star) : Nat :=
  (db.movies.filter (fun m => m.directorId == some s.id)).length

/-- get_stats_movie_by_director: join stars to the films they direct (an
inner join, so only stars directing at least one film appear), group by the
star entity, keep groups whose film count reaches min_count, order by the
count descending, return the full star entity with the count. -/
def get_stats_movie_by_director (db : DB) (min_count : Nat) :
    List (Star × Nat) :=
  List.insertionSort (fun a b => b.2 ≤ a.2)
    (((db.stars.filter (fun s => decide (0 < directedCount db s))).map
      (fun s => (s, directedCount db s))).filter
      (fun p => decide (min_count ≤ p.2)))

/-! ## General lemmas about the query building blocks -/

theorem pairwise_sort_le {α β : Type} [LinearOrder β] (f : α → β)
    (l : List α) :
    (List.insertionSort (fun a b => f a ≤ f b) l).Pairwise
      (fun a b => f a ≤ f b) := by
  haveI h1 : IsTotal α (fun a b => f a ≤ f b) :=
    ⟨fun a b => le_total (f a) (f b)⟩
  haveI h2 : IsTrans α (fun a b => f a ≤ f b) :=
    ⟨fun a b c hab hbc => le_trans hab hbc⟩
  exact List.sorted_insertionSort (fun a b => f a ≤ f b) l

theorem pairwise_sort_ge {α β : Type} [LinearOrder β] (f : α → β)
    (l : List α) :
    (List.insertionSort (fun a b => f b ≤ f a) l).Pairwise
      (fun a b => f b ≤ f a) := by
  haveI h1 : IsTotal α (fun a b => f b ≤ f a) :=
    ⟨fun a b => le_total (f b) (f a)⟩
  haveI h2 : IsTrans α (fun a b => f b ≤ f a) :=
    ⟨fun a b c hab hbc => le_trans hbc hab⟩
  exact List.sorted_insertionSort (fun a b => f b ≤ f a) l

theorem uniqueByAux_sublist {α β : Type} [DecidableEq β] (f : α → β) :
    ∀ (l : List α) (seen : List β), (uniqueByAux f seen l).Sublist l := by
  intro l
  induction l with
  | nil => intro seen; simp [uniqueByAux]
  | cons a t ih =>
    intro seen
    simp only [uniqueByAux]
    by_cases h : f a ∈ seen
    · simp only [if_pos h]
      exact (ih seen).cons a
    · simp only [if_neg h]
      exact (ih (f a :: seen)).cons₂ a

theorem uniqueBy_sublist {α β : Type} [DecidableEq β] (f : α → β)
    (l : List α) : (uniqueBy f l).Sublist l :=
  uniqueByAux_sublist f l []

theorem mem_uniqueByAux {α β : Type} [DecidableEq β] (f : α → β) :
    ∀ (l : List α) (seen : List β),
      (∀ x ∈ l, ∀ y ∈ l, f x = f y → x = y) →
      ∀ x : α, x ∈ uniqueByAux f seen l ↔ x ∈ l ∧ f x ∉ seen := by
  intro l
  induction l with
  | nil => intro seen _ x; simp [uniqueByAux]
  | cons a t ih =>
    intro seen hinj x
    have hinjt : ∀ u ∈ t, ∀ v ∈ t, f u = f v → u = v := fun u hu v hv =>
      hinj u (List.mem_cons_of_mem a hu) v (List.mem_cons_of_mem a hv)
    simp only [uniqueByAux]
    by_cases h : f a ∈ seen
    · rw [if_pos h, ih seen hinjt x]
      simp only [List.mem_cons]
      constructor
      · rintro ⟨hx, hsn⟩; exact ⟨Or.inr hx, hsn⟩
      · rintro ⟨hx | hx, hsn⟩
        · exact absurd (hx ▸ h) hsn
        · exact ⟨hx, hsn⟩
    · rw [if_neg h]
      simp only [List.mem_cons, ih (f a :: seen) hinjt x, List.mem_cons]
      constructor
      · rintro (rfl | ⟨hx, hsn⟩)
        · exact ⟨Or.inl rfl, h⟩
        · exact ⟨Or.inr hx, fun hc => hsn (Or.inr hc)⟩
      · rintro ⟨rfl | hx, hsn⟩
        · exact Or.inl rfl
        · by_cases hfa : f x = f a
          · exact Or.inl (hinj x (List.mem_cons_of_mem a hx) a
              (List.mem_cons_self a t) hfa)
          · exact Or.inr ⟨hx, fun hc => hc.elim hfa hsn⟩

theorem mem_uniqueBy {α β : Type} [DecidableEq β] (f : α → β) (l : List α)
    (hinj : ∀ x ∈ l, ∀ y ∈ l, f x = f y → x = y) (x : α) :
    x ∈ uniqueBy f l ↔ x ∈ l := by
  rw [uniqueBy, mem_uniqueByAux f l [] hinj x]
  simp

theorem length_filter_key_le_one {α β : Type} [BEq β] [LawfulBEq β]
    (f : α → β) (v : β) :
    ∀ l : List α, l.Pairwise (fun a b => f a ≠ f b) →
      (l.filter (fun a => f a == v)).length ≤ 1 := by
  intro l
  induction l with
  | nil => simp
  | cons a t ih =>
    intro h
    rcases List.pairwise_cons.mp h with ⟨ha, ht⟩
    by_cases hv : (f a == v) = true
    · rw [List.filter_cons, if_pos hv]
      have hnil : t.filter (fun b => f b == v) = [] := by
        apply List.filter_eq_nil_iff.mpr
        intro b hb hbv
        exact ha b hb (by
          have h1 : f a = v := by simpa using hv
          have h2 : f b = v := by simpa using hbv
          rw [h1, h2])
      simp [hnil]
    · rw [List.filter_cons, if_neg hv]
      exact ih ht

theorem filter_eraseP_eq_nil {α : Type} (p : α → Bool) :
    ∀ l : List α, (l.filter p).length ≤ 1 → (l.eraseP p).filter p = [] := by
  intro l
  induction l with
  | nil => simp
  | cons a t ih =>
    intro h
    by_cases hp : p a = true
    · rw [List.eraseP_cons, hp, cond_true]
      rw [List.filter_cons, if_pos hp, List.length_cons] at h
      exact List.length_eq_zero.mp (by omega)
    · rw [List.eraseP_cons, Bool.of_not_eq_true hp, cond_false]
      rw [List.filter_cons, if_neg hp]
      rw [List.filter_cons, if_neg hp] at h
      exact ih h

theorem filter_key_singleton {α β : Type} [BEq β] [LawfulBEq β] (f : α → β) :
    ∀ l : List α, l.Pairwise (fun a b => f a ≠ f b) →
      ∀ s ∈ l, l.filter (fun x => f x == f s) = [s] := by
  intro l
  induction l with
  | nil => simp
  | cons a t ih =>
    intro h s hs
    rcases List.pairwise_cons.mp h with ⟨ha, ht⟩
    rcases List.mem_cons.mp hs with rfl | hst
    · rw [List.filter_cons, if_pos (by simp)]
      have hnil : t.filter (fun x => f x == f s) = [] := by
        apply List.filter_eq_nil_iff.mpr
        intro b hb hbv
        have h2 : f b = f s := by simpa using hbv
        exact ha b hb h2.symm
      rw [hnil]
    · rw [List.filter_cons, if_neg (by
        simp only [beq_iff_eq]
        exact ha s hst)]
      exact ih ht s hst

theorem flatMap_singleton_id {α : Type} (g : α → List α) :
    ∀ l : List α, (∀ a ∈ l, g a = [a]) → l.flatMap g = l := by
  intro l
  induction l with
  | nil => simp
  | cons a t ih =>
    intro h
    rw [List.flatMap_cons, h a (List.mem_cons_self a t),
      ih (fun b hb => h b (List.mem_cons_of_mem a hb))]
    rfl

theorem mem_directorRows {db : DB} {m : Movie} {s : Star} :
    (m, s) ∈ directorRows db ↔
      m ∈ db.movies ∧ s ∈ db.stars ∧ m.directorId = some s.id := by
  simp only [directorRows, List.mem_flatMap, List.mem_map, List.mem_filter,
    Prod.mk.injEq, beq_iff_eq]
  constructor
  · rintro ⟨m1, hm1, s1, ⟨hs1, hdir⟩, rfl, rfl⟩
    exact ⟨hm1, hs1, hdir⟩
  · rintro ⟨hm, hs, hdir⟩
    exact ⟨m, hm, s, ⟨hs, hdir⟩, rfl, rfl⟩

theorem mem_castRows {db : DB} {m : Movie} {s : Star} :
    (m, s) ∈ castRows db ↔
      m ∈ db.movies ∧ s ∈ db.stars ∧ (m.id, s.id) ∈ db.cast := by
  simp only [castRows, List.mem_flatMap, List.mem_map, List.mem_filter,
    Prod.mk.injEq, beq_iff_eq]
  constructor
  · rintro ⟨m1, hm1, c, ⟨hc, hc1⟩, s1, ⟨hs1, hc2⟩, rfl, rfl⟩
    refine ⟨hm1, hs1, ?_⟩
    have hce : c = (m1.id, s1.id) := Prod.ext hc1 hc2.symm
    exact hce ▸ hc
  · rintro ⟨hm, hs, hc⟩
    exact ⟨m, hm, (m.id, s.id), ⟨hc, rfl⟩, s, ⟨hs, rfl⟩, rfl, rfl⟩

theorem update_movie_actors_castStars (db : DB) (mid : Nat) (ids : List Nat)
    (hs : db.stars.Pairwise (fun a b => a.id ≠ b.id))
    (m0 : Movie) (hm : get_movie db mid = some m0) :
    castStars (update_movie_actors db mid ids).2 mid =
      db.stars.filter (fun s => ids.contains s.id) := by
  simp only [update_movie_actors, hm]
  simp only [castStars, List.filter_append, List.filter_filter]
  have h1 : (db.cast.filter
      (fun c => (c.1 == mid) && !(c.1 == mid))) = [] := by
    apply List.filter_eq_nil_iff.mpr
    intro c _
    simp
  have h2 : ((db.stars.filter (fun s => ids.contains s.id)).map
        (fun s => (mid, s.id))).filter (fun c => c.1 == mid) =
      (db.stars.filter (fun s => ids.contains s.id)).map
        (fun s => (mid, s.id)) := by
    rw [List.filter_map]
    simp [Function.comp_def]
  rw [h1, h2, List.nil_append, List.flatMap_map]
  apply flatMap_singleton_id
  intro s hsr
  have hsm : s ∈ db.stars := (List.mem_filter.mp hsr).1
  exact filter_key_singleton (fun x : Star => x.id) db.stars hs s hsm

/-! ## Concrete stores for witnesses and counterexamples

The section 8 scenario: persons Nolan (id 1) and DiCaprio (id 2), film
Inception (id 10), director set to person 1, person 2 added to the cast. -/

def nolan : Star := ⟨1, "Nolan", none⟩

def dicaprio : Star := ⟨2, "DiCaprio", none⟩

def inception : Movie := ⟨10, "Inception", 2010, some 148, some 1⟩

def scenarioDB : DB := ⟨[inception], [nolan, dicaprio], [(10, 2)]⟩

/-- the same store before the director was set: film 10 has no director. -/
def inceptionNoDir : Movie := ⟨10, "Inception", 2010, some 148, none⟩

def dbNoDir : DB := ⟨[inceptionNoDir], [nolan, dicaprio], []⟩

/-- store state after the replace-cast call of the section 8 scenario. -/
def afterReplace : DB := (update_movie_actors scenarioDB 10 [2, 2]).2

/-! ## Claim C1 -/

/-- C1: the spec requires the director lookup to return an absent value as
data both when the film is missing and when its director is unset, but the
source dereferences the director attribute of the first joined row without
any guard, so both absent cases raise instead of returning absent (embedded
as the error value); the guarded lookup the spec mandates returns the
absent value on the same inputs, and the film of the second input does
exist. -/
theorem C1_director_lookup_crashes :
    get_director_by_movie_id dbNoDir 99 = Except.error () ∧
    get_director_by_movie_id dbNoDir 10 = Except.error () ∧
    get_movie dbNoDir 10 = some inceptionNoDir ∧
    get_director_guarded dbNoDir 99 = none ∧
    get_director_guarded dbNoDir 10 = none ∧
    get_director_by_movie_id scenarioDB 10 = Except.ok nolan := by
  refine ⟨rfl, rfl, rfl, rfl, rfl, rfl⟩

/-! ## Claim C10 -/

/-- C10: a list call without explicit pagination parameters uses the source
defaults skip=0 and limit=100: it returns exactly the first 100 entities of
the natural order, hence at most 100, and the full store is that result
followed by the rest. -/
theorem C10_default_pagination (db : DB) :
    get_movies db = db.movies.take 100 ∧
    (get_movies db).length ≤ 100 ∧
    db.movies = get_movies db ++ db.movies.drop 100 ∧
    get_stars db = db.stars.take 100 ∧
    (get_stars db).length ≤ 100 ∧
    db.stars = get_stars db ++ db.stars.drop 100 := by
  refine ⟨by simp [get_movies], ?_, ?_, by simp [get_stars], ?_, ?_⟩
  · exact List.length_take_le 100 (db.movies.drop 0)
  · simp [get_movies, List.take_append_drop]
  · exact List.length_take_le 100 (db.stars.drop 0)
  · simp [get_stars, List.take_append_drop]

/-! ## Claim C4 -/

/-- C4: the year-range query is absent exactly when both bounds are absent;
whenever it yields a list, that list holds exactly the films meeting every
present inclusive bound, so one present bound filters by that bound alone
and two present bounds filter by their conjunction. -/
theorem C4_range_year (db : DB) (b1 b2 : Option Int) :
    (get_movies_by_range_year db b1 b2 = none ↔ b1 = none ∧ b2 = none) ∧
    (∀ l, get_movies_by_range_year db b1 b2 = some l →
      ∀ m, m ∈ l ↔ m ∈ db.movies ∧
        (∀ a, b1 = some a → a ≤ m.year) ∧
        (∀ b, b2 = some b → m.year ≤ b)) := by
  cases b1 with
  | none =>
    cases b2 with
    | none => simp [get_movies_by_range_year]
    | some ymax =>
      refine ⟨by simp [get_movies_by_range_year], ?_⟩
      intro l hl m
      rw [show l = db.movies.filter (fun m => decide (m.year ≤ ymax)) from
        (Option.some.injEq .. ▸ hl :
          db.movies.filter (fun m => decide (m.year ≤ ymax)) = l).symm]
      simp [List.mem_filter]
  | some ymin =>
    cases b2 with
    | none =>
      refine ⟨by simp [get_movies_by_range_year], ?_⟩
      intro l hl m
      rw [show l = db.movies.filter (fun m => decide (ymin ≤ m.year)) from
        (Option.some.injEq .. ▸ hl :
          db.movies.filter (fun m => decide (ymin ≤ m.year)) = l).symm]
      simp [List.mem_filter]
    | some ymax =>
      refine ⟨by simp [get_movies_by_range_year], ?_⟩
      intro l hl m
      rw [show l = db.movies.filter
          (fun m => decide (ymin ≤ m.year) && decide (m.year ≤ ymax)) from
        (Option.some.injEq .. ▸ hl :
          db.movies.filter
            (fun m => decide (ymin ≤ m.year) && decide (m.year ≤ ymax)) = l).symm]
      simp only [List.mem_filter, Bool.and_eq_true, decide_eq_true_eq,
        Option.some.injEq]
      constructor
      · rintro ⟨hm, hlo, hhi⟩
        exact ⟨hm, fun a ha => ha ▸ hlo, fun b hb => hb ▸ hhi⟩
      · rintro ⟨hm, hlo, hhi⟩
        exact ⟨hm, hlo ymin rfl, hhi ymax rfl⟩

def movieA : Movie := ⟨1, "A", 1999, none, none⟩

def movieB : Movie := ⟨2, "B", 2005, none, none⟩

def rangeDB : DB := ⟨[movieA, movieB], [], []⟩

/-- C4 witness: at a concrete store, the lower-bound-only query yields a
list and the 2005 film belongs to it. -/
theorem C4_range_year_witness :
    movieB ∈ rangeDB.movies.filter (fun m => decide ((2000 : Int) ≤ m.year)) ∧
    get_movies_by_range_year rangeDB (some 2000) none =
      some (rangeDB.movies.filter (fun m => decide ((2000 : Int) ≤ m.year))) := by
  refine ⟨?_, rfl⟩
  exact ((C4_range_year rangeDB (some 2000) none).2
      (rangeDB.movies.filter (fun m => decide ((2000 : Int) ≤ m.year))) rfl
      movieB).mpr
    ⟨by decide, fun a ha => by cases ha; decide, fun b hb => by cases hb⟩

/-! ## Claim C9 -/

/-- C9: update and delete of a missing id return absent and commit no write,
for films and for persons alike; after a successful delete, under distinct
stored ids, a get on the deleted id is absent and a second delete on it is
absent as well and leaves the store as it was. -/
theorem C9_update_delete_missing (db : DB) (mu : MovieUpd) (su : StarUpd)
    (mid sid : Nat) :
    (get_movie db mu.id = none → update_movie db mu = (none, db)) ∧
    (get_star db su.id = none → update_star db su = (none, db)) ∧
    (get_movie db mid = none → delete_movie db mid = (none, db)) ∧
    (get_star db sid = none → delete_star db sid = (none, db)) ∧
    (db.movies.Pairwise (fun a b => a.id ≠ b.id) →
      ∀ m db1, delete_movie db mid = (some m, db1) →
        get_movie db1 mid = none ∧ delete_movie db1 mid = (none, db1)) ∧
    (db.stars.Pairwise (fun a b => a.id ≠ b.id) →
      ∀ s db1, delete_star db sid = (some s, db1) →
        get_star db1 sid = none ∧ delete_star db1 sid = (none, db1)) := by
  refine ⟨?_, ?_, ?_, ?_, ?_, ?_⟩
  · intro h
    simp only [get_movie] at h
    simp [update_movie, h]
  · intro h
    simp only [get_star] at h
    simp [update_star, h]
  · intro h
    simp only [get_movie] at h
    simp [delete_movie, h]
  · intro h
    simp only [get_star] at h
    simp [delete_star, h]
  · intro hp m db1 hdel
    simp only [delete_movie] at hdel
    cases heq : (db.movies.filter (fun x => x.id == mid)).head? with
    | none => rw [heq] at hdel; simp at hdel
    | some m0 =>
      rw [heq] at hdel
      obtain ⟨-, rfl⟩ := Prod.mk.injEq .. ▸ hdel
      have hnil : (db.movies.eraseP (fun x => x.id == mid)).filter
          (fun x => x.id == mid) = [] :=
        filter_eraseP_eq_nil _ _
          (length_filter_key_le_one (fun x : Movie => x.id) mid db.movies hp)
      constructor
      · simp [get_movie, hnil]
      · simp [delete_movie, hnil]
  · intro hp s db1 hdel
    simp only [delete_star] at hdel
    cases heq : (db.stars.filter (fun x => x.id == sid)).head? with
    | none => rw [heq] at hdel; simp at hdel
    | some s0 =>
      rw [heq] at hdel
      obtain ⟨-, rfl⟩ := Prod.mk.injEq .. ▸ hdel
      have hnil : (db.stars.eraseP (fun x => x.id == sid)).filter
          (fun x => x.id == sid) = [] :=
        filter_eraseP_eq_nil _ _
          (length_filter_key_le_one (fun x : Star => x.id) sid db.stars hp)
      constructor
      · simp [get_star, hnil]
      · simp [delete_star, hnil]

/-- C9 witness: at the concrete store, updating a missing film id is an
absent no-op, and after deleting film 10 both the get and the second delete
on id 10 are absent. -/
theorem C9_update_delete_missing_witness :
    update_movie dbNoDir ⟨99, "X", 2000, none⟩ = (none, dbNoDir) ∧
    get_movie (delete_movie dbNoDir 10).2 10 = none ∧
    delete_movie (delete_movie dbNoDir 10).2 10 =
      (none, (delete_movie dbNoDir 10).2) := by
  have h := C9_update_delete_missing dbNoDir ⟨99, "X", 2000, none⟩
      ⟨99, "X", none⟩ 10 99
  refine ⟨h.1 rfl, ?_, ?_⟩
  · exact (h.2.2.2.2.1 (by decide) inceptionNoDir
      (delete_movie dbNoDir 10).2 rfl).1
  · exact (h.2.2.2.2.1 (by decide) inceptionNoDir
      (delete_movie dbNoDir 10).2 rfl).2

/-! ## Claim C5 -/

/-- C5: replace-cast is absent exactly when the film id is missing, with no
write in that case; when the film exists the call succeeds whatever the id
list holds, ids matching no stored person are silently dropped, and the
stored cast after the commit, as a re-read observes it, is exactly the
stored persons whose id occurs in the list. -/
theorem C5_replace_cast (db : DB) (mid : Nat) (ids : List Nat)
    (hs : db.stars.Pairwise (fun a b => a.id ≠ b.id)) :
    ((update_movie_actors db mid ids).1 = none ↔ get_movie db mid = none) ∧
    (get_movie db mid = none → update_movie_actors db mid ids = (none, db)) ∧
    (∀ m0, get_movie db mid = some m0 →
      (update_movie_actors db mid ids).1 = some m0 ∧
      castStars (update_movie_actors db mid ids).2 mid =
        db.stars.filter (fun s => ids.contains s.id)) := by
  refine ⟨?_, ?_, ?_⟩
  · cases h : get_movie db mid with
    | none => simp [update_movie_actors, h]
    | some m0 => simp [update_movie_actors, h]
  · intro h
    simp [update_movie_actors, h]
  · intro m0 h
    exact ⟨by simp [update_movie_actors, h],
      update_movie_actors_castStars db mid ids hs m0 h⟩

/-- C5 witness: in the section 8 scenario the replace-cast call with the
list [2, 2] succeeds and stores as cast exactly the stored persons whose id
is in the list. -/
theorem C5_replace_cast_witness :
    (update_movie_actors scenarioDB 10 [2, 2]).1 = some inception ∧
    castStars (update_movie_actors scenarioDB 10 [2, 2]).2 10 =
      scenarioDB.stars.filter (fun s => [2, 2].contains s.id) := by
  exact (C5_replace_cast scenarioDB 10 [2, 2] (by decide)).2.2 inception rfl

/-! ## Claim C2 -/

/-- C2 counterexample: in the section 8 scenario, after person 2 joined the
cast, the replace-cast call with the duplicated list [2, 2] leaves person 2
in the cast exactly once, not twice: the stored cast is the one-element
list, its count of person 2 is not 2, and the association relation holds a
single row for the pair. -/
theorem C2_counterexample :
    castStars afterReplace 10 = [dicaprio] ∧
    (castStars afterReplace 10).count dicaprio ≠ 2 ∧
    afterReplace.cast.count (10, 2) = 1 := by
  refine ⟨rfl, by decide, rfl⟩

/-- C2 amended: add_cast_member appends the association row with no
deduplication, so a repeated add accumulates rows; replace_cast, instead,
resolves the id list with an IN filter over the stored persons, which
yields each matching person once however often its id repeats, so
replace_cast(10, [2, 2]) leaves person 2 in the cast exactly once. -/
theorem C2_cast_dedup_behavior (db : DB) (mid sid : Nat) (ids : List Nat)
    (hs : db.stars.Pairwise (fun a b => a.id ≠ b.id)) :
    (∀ m0 s0, get_movie db mid = some m0 → get_star db sid = some s0 →
      (add_movie_actor db mid sid).2.cast.count (mid, s0.id) =
        db.cast.count (mid, s0.id) + 1) ∧
    (∀ m0, get_movie db mid = some m0 →
      ∀ s ∈ db.stars, ids.contains s.id = true →
        (castStars (update_movie_actors db mid ids).2 mid).count s = 1) := by
  constructor
  · intro m0 s0 hm hsid
    simp [add_movie_actor, hm, hsid, List.count_append]
  · intro m0 hm s hsm hside
    rw [update_movie_actors_castStars db mid ids hs m0 hm]
    have hnd : (db.stars.filter (fun x => ids.contains x.id)).Nodup :=
      List.Nodup.filter _
        (List.Pairwise.imp (fun hne => fun he => hne (he ▸ rfl)) hs)
    exact List.count_eq_one_of_mem hnd
      (List.mem_filter.mpr ⟨hsm, hside⟩)

/-- C2 witness: in the section 8 scenario a second add of person 2 to the
cast of film 10 raises the count of the association row from one to two. -/
theorem C2_cast_dedup_behavior_witness :
    (add_movie_actor scenarioDB 10 2).2.cast.count (10, 2) =
      scenarioDB.cast.count (10, 2) + 1 ∧
    (castStars (update_movie_actors scenarioDB 10 [2, 2]).2 10).count
      dicaprio = 1 := by
  have h := C2_cast_dedup_behavior scenarioDB 10 2 [2, 2] (by decide)
  exact ⟨h.1 inception dicaprio rfl rfl,
    h.2 inception rfl dicaprio (by decide) (by decide)⟩

/-! ## Claim C3 -/

theorem mem_row_query {α : Type} [DecidableEq α] (key : α → Nat)
    (rows : List (Movie × Star)) (p : Movie × Star → Bool)
    (f : Movie × Star → α)
    (hinj : ∀ x ∈ (List.insertionSort (fun a b => b.1.year ≤ a.1.year) (rows.filter p)).map f,
      ∀ y ∈ (List.insertionSort (fun a b => b.1.year ≤ a.1.year) (rows.filter p)).map f,
        key x = key y → x = y) (x : α) :
    x ∈ uniqueBy key ((List.insertionSort (fun a b => b.1.year ≤ a.1.year) (rows.filter p)).map f) ↔
      ∃ r ∈ rows, p r = true ∧ f r = x := by
  rw [mem_uniqueBy key _ hinj x, List.mem_map]
  constructor
  · rintro ⟨r, hr, rfl⟩
    rw [List.mem_insertionSort, List.mem_filter] at hr
    exact ⟨r, hr.1, hr.2, rfl⟩
  · rintro ⟨r, hr, hp, rfl⟩
    exact ⟨r, (List.mem_insertionSort _).mpr (List.mem_filter.mpr ⟨hr, hp⟩), rfl⟩

theorem directorRows_proj (db : DB) {r : Movie × Star}
    (hr : r ∈ directorRows db) : r.1 ∈ db.movies ∧ r.2 ∈ db.stars := by
  have h := @mem_directorRows db r.1 r.2
  rw [Prod.mk.eta] at h
  exact ⟨(h.mp hr).1, (h.mp hr).2.1⟩

theorem castRows_proj (db : DB) {r : Movie × Star}
    (hr : r ∈ castRows db) : r.1 ∈ db.movies ∧ r.2 ∈ db.stars := by
  have h := @mem_castRows db r.1 r.2
  rw [Prod.mk.eta] at h
  exact ⟨(h.mp hr).1, (h.mp hr).2.1⟩

theorem map_proj_inj {α : Type} (key : α → Nat) (good : List α)
    (hinj : ∀ x ∈ good, ∀ y ∈ good, key x = key y → x = y)
    (l : List α) (hsub : ∀ x ∈ l, x ∈ good) :
    ∀ x ∈ l, ∀ y ∈ l, key x = key y → x = y :=
  fun x hx y hy => hinj x (hsub x hx) y (hsub y hy)

/-- C3 counterexample: in the section 8 scenario the cast lookup by title
value "cept" returns the cast of "Inception" although that title does not
end with "cept" (the title predicate of the source is containment, not
suffix); the name-suffix predicate itself does behave as a true suffix on
the spec examples. -/
theorem C3_counterexample :
    dicaprio ∈ get_actors_by_movie_endname scenarioDB "cept" ∧
    likeEnd "cept" "Inception" = false ∧
    likeAround "cept" "Inception" = true ∧
    likeEnd "son" "Johnson" = true ∧
    likeEnd "son" "Jonsonville" = false := by
  refine ⟨by decide, by decide, by decide, by decide, by decide⟩

/-- C3 amended: the director-name and actor-name lookups match exactly the
names ending with the given value, and the substring queries (partial title,
partial name) match exactly the strings holding the value anywhere; but the
cast lookup by title (get_actors_by_movie_endname) also uses containment on
the title, not a suffix match, despite its name. -/
theorem C3_match_semantics (db : DB) (v : String)
    (hm : ∀ x ∈ db.movies, ∀ y ∈ db.movies, x.id = y.id → x = y)
    (hs : ∀ x ∈ db.stars, ∀ y ∈ db.stars, x.id = y.id → x = y) :
    (∀ m, m ∈ get_movies_by_director_endname db v ↔
      m ∈ db.movies ∧ ∃ s ∈ db.stars, m.directorId = some s.id ∧
        ∃ l, s.name.data = l ++ v.data) ∧
    (∀ m, m ∈ get_movies_by_actor_endname db v ↔
      m ∈ db.movies ∧ ∃ s ∈ db.stars, (m.id, s.id) ∈ db.cast ∧
        ∃ l, s.name.data = l ++ v.data) ∧
    (∀ s, s ∈ get_actors_by_movie_endname db v ↔
      s ∈ db.stars ∧ ∃ m ∈ db.movies, (m.id, s.id) ∈ db.cast ∧
        ∃ l r, m.title.data = l ++ v.data ++ r) ∧
    (∀ m, m ∈ get_movies_by_parttitle db v ↔
      m ∈ db.movies ∧ ∃ l r, m.title.data = l ++ v.data ++ r) ∧
    (∀ s, s ∈ get_stars_by_partname db v ↔
      s ∈ db.stars ∧ ∃ l r, s.name.data = l ++ v.data ++ r) := by
  refine ⟨?_, ?_, ?_, ?_, ?_⟩
  · intro m
    rw [get_movies_by_director_endname,
      mem_row_query (fun x : Movie => x.id) _ _ _
        (map_proj_inj _ db.movies hm _ (by
          intro x hx
          obtain ⟨r, hr, rfl⟩ := List.mem_map.mp hx
          rw [List.mem_insertionSort, List.mem_filter] at hr
          exact (directorRows_proj db hr.1).1))]
    constructor
    · rintro ⟨r, hr, hlike, rfl⟩
      obtain ⟨hrm, hrs⟩ := directorRows_proj db hr
      have hds := (@mem_directorRows db r.1 r.2).mp
        (by rw [Prod.mk.eta]; exact hr)
      exact ⟨hrm, r.2, hrs, hds.2.2, (endsWithSub_iff v.data r.2.name.data).mp hlike⟩
    · rintro ⟨hmm, s, hss, hdir, l, hl⟩
      exact ⟨(m, s), mem_directorRows.mpr ⟨hmm, hss, hdir⟩,
        (endsWithSub_iff v.data s.name.data).mpr ⟨l, hl⟩, rfl⟩
  · intro m
    rw [get_movies_by_actor_endname,
      mem_row_query (fun x : Movie => x.id) _ _ _
        (map_proj_inj _ db.movies hm _ (by
          intro x hx
          obtain ⟨r, hr, rfl⟩ := List.mem_map.mp hx
          rw [List.mem_insertionSort, List.mem_filter] at hr
          exact (castRows_proj db hr.1).1))]
    constructor
    · rintro ⟨r, hr, hlike, rfl⟩
      obtain ⟨hrm, hrs⟩ := castRows_proj db hr
      have hds := (@mem_castRows db r.1 r.2).mp
        (by rw [Prod.mk.eta]; exact hr)
      exact ⟨hrm, r.2, hrs, hds.2.2, (endsWithSub_iff v.data r.2.name.data).mp hlike⟩
    · rintro ⟨hmm, s, hss, hcast, l, hl⟩
      exact ⟨(m, s), mem_castRows.mpr ⟨hmm, hss, hcast⟩,
        (endsWithSub_iff v.data s.name.data).mpr ⟨l, hl⟩, rfl⟩
  · intro s
    rw [get_actors_by_movie_endname,
      mem_row_query (fun x : Star => x.id) _ _ _
        (map_proj_inj _ db.stars hs _ (by
          intro x hx
          obtain ⟨r, hr, rfl⟩ := List.mem_map.mp hx
          rw [List.mem_insertionSort, List.mem_filter] at hr
          exact (castRows_proj db hr.1).2))]
    constructor
    · rintro ⟨r, hr, hlike, rfl⟩
      obtain ⟨hrm, hrs⟩ := castRows_proj db hr
      have hds := (@mem_castRows db r.1 r.2).mp
        (by rw [Prod.mk.eta]; exact hr)
      exact ⟨hrs, r.1, hrm, hds.2.2,
        (containsSub_iff v.data r.1.title.data).mp hlike⟩
    · rintro ⟨hss, m, hmm, hcast, l, r, hl⟩
      exact ⟨(m, s), mem_castRows.mpr ⟨hmm, hss, hcast⟩,
        (containsSub_iff v.data m.title.data).mpr ⟨l, r, hl⟩, rfl⟩
  · intro m
    rw [get_movies_by_parttitle, List.mem_insertionSort, List.mem_filter]
    exact and_congr_right (fun _ => containsSub_iff v.data m.title.data)
  · intro s
    rw [get_stars_by_partname, List.mem_insertionSort, List.mem_filter]
    exact and_congr_right (fun _ => containsSub_iff v.data s.name.data)

/-- C3 witness: at the concrete store, the film directed by Nolan is found
under the true suffix "lan" of "Nolan", and the cast of "Inception" is found
under the contained value "cept". -/
theorem C3_match_semantics_witness :
    inception ∈ get_movies_by_director_endname scenarioDB "lan" ∧
    dicaprio ∈ get_actors_by_movie_endname scenarioDB "cept" := by
  refine ⟨?_, ?_⟩
  · exact ((C3_match_semantics scenarioDB "lan" (by decide) (by decide)).1
      inception).mpr ⟨by decide, nolan, by decide, by decide,
        "No".data, by decide⟩
  · exact ((C3_match_semantics scenarioDB "cept" (by decide)
      (by decide)).2.2.1 dicaprio).mpr ⟨by decide, inception, by decide,
        by decide, "In".data, "ion".data, by decide⟩

/-! ## Claim C6 -/

theorem pairwise_rows_sort (l : List (Movie × Star)) :
    (List.insertionSort (fun a b => b.1.year ≤ a.1.year) l).Pairwise
      (fun a b => b.1.year ≤ a.1.year) :=
  pairwise_sort_ge (fun r : Movie × Star => r.1.year) l

theorem pairwise_movie_query (rows : List (Movie × Star))
    (p : Movie × Star → Bool) :
    (uniqueBy (fun m : Movie => m.id)
      ((List.insertionSort (fun a b => b.1.year ≤ a.1.year)
        (rows.filter p)).map (fun r => r.1))).Pairwise
      (fun a b => b.year ≤ a.year) := by
  have h1 := pairwise_rows_sort (rows.filter p)
  have h2 : ((List.insertionSort (fun a b => b.1.year ≤ a.1.year)
      (rows.filter p)).map (fun r => r.1)).Pairwise
      (fun a b : Movie => b.year ≤ a.year) := List.pairwise_map.mpr h1
  exact List.Pairwise.sublist (uniqueBy_sublist _ _) h2

/-- C6: every query reproduces its specified ordering: films by exact or
partial title ascend by year; people by exact name, by partial name or by
birth year ascend by name; films by director-name or actor-name ending
descend by year; and both cast listings are the entity projection of join
rows sorted descending by film year. -/
theorem C6_query_orderings (db : DB) (t n v : String) (y : Int) (mid : Nat) :
    (get_movies_by_title db t).Pairwise (fun a b => a.year ≤ b.year) ∧
    (get_movies_by_parttitle db t).Pairwise (fun a b => a.year ≤ b.year) ∧
    (get_stars_by_name db n).Pairwise (fun a b => a.name ≤ b.name) ∧
    (get_stars_by_partname db n).Pairwise (fun a b => a.name ≤ b.name) ∧
    (get_stars_by_birthyear db y).Pairwise (fun a b => a.name ≤ b.name) ∧
    (get_movies_by_director_endname db v).Pairwise
      (fun a b => b.year ≤ a.year) ∧
    (get_movies_by_actor_endname db v).Pairwise
      (fun a b => b.year ≤ a.year) ∧
    ((List.insertionSort (fun a b => b.1.year ≤ a.1.year)
        ((castRows db).filter (fun r => r.1.id == mid))).Pairwise
      (fun a b => b.1.year ≤ a.1.year) ∧
      get_actors_by_movie_id db mid = uniqueBy (fun s => s.id)
        ((List.insertionSort (fun a b => b.1.year ≤ a.1.year)
          ((castRows db).filter (fun r => r.1.id == mid))).map
          (fun r => r.2))) ∧
    ((List.insertionSort (fun a b => b.1.year ≤ a.1.year)
        ((castRows db).filter (fun r => likeAround v r.1.title))).Pairwise
      (fun a b => b.1.year ≤ a.1.year) ∧
      get_actors_by_movie_endname db v = uniqueBy (fun s => s.id)
        ((List.insertionSort (fun a b => b.1.year ≤ a.1.year)
          ((castRows db).filter (fun r => likeAround v r.1.title))).map
          (fun r => r.2))) := by
  refine ⟨?_, ?_, ?_, ?_, ?_, ?_, ?_, ⟨?_, rfl⟩, ⟨?_, rfl⟩⟩
  · exact pairwise_sort_le (fun m : Movie => m.year) _
  · exact pairwise_sort_le (fun m : Movie => m.year) _
  · exact pairwise_sort_le (fun s : Star => s.name) _
  · exact pairwise_sort_le (fun s : Star => s.name) _
  · exact pairwise_sort_le (fun s : Star => s.name) _
  · exact pairwise_movie_query _ _
  · exact pairwise_movie_query _ _
  · exact pairwise_rows_sort _
  · exact pairwise_rows_sort _

/-! ## Claim C7 -/

theorem mem_stats_by_director (db : DB) (mc : Nat) (s : Star) (c : Nat) :
    (s, c) ∈ get_stats_movie_by_director db mc ↔
      s ∈ db.stars ∧ c = directedCount db s ∧ 0 < c ∧ mc ≤ c := by
  unfold get_stats_movie_by_director
  rw [List.mem_insertionSort, List.mem_filter, List.mem_map]
  simp only [List.mem_filter, decide_eq_true_eq, Prod.mk.injEq]
  constructor
  · rintro ⟨⟨s1, ⟨hs1, hpos⟩, rfl, rfl⟩, hmc⟩
    exact ⟨hs1, rfl, hpos, hmc⟩
  · rintro ⟨hs1, rfl, hpos, hmc⟩
    exact ⟨⟨s, ⟨hs1, hpos⟩, rfl, rfl⟩, hmc⟩

/-- C7: a pair belongs to the director statistics exactly when it pairs a
stored person with the exact count of the films directed by that person,
the count is at least one (the inner join only sees existing director
links) and reaches min_count; the result descends by count; with min_count
two no director of exactly one film appears; with min_count zero every
person directing at least one film appears with their count. -/
theorem C7_stats_by_director (db : DB) (mc : Nat) :
    (∀ s c, (s, c) ∈ get_stats_movie_by_director db mc ↔
      s ∈ db.stars ∧ c = directedCount db s ∧ 0 < c ∧ mc ≤ c) ∧
    (get_stats_movie_by_director db mc).Pairwise (fun a b => b.2 ≤ a.2) ∧
    (∀ s, directedCount db s = 1 →
      ∀ c, (s, c) ∉ get_stats_movie_by_director db 2) ∧
    (∀ s ∈ db.stars, 0 < directedCount db s →
      (s, directedCount db s) ∈ get_stats_movie_by_director db 0) := by
  refine ⟨fun s c => mem_stats_by_director db mc s c, ?_, ?_, ?_⟩
  · exact pairwise_sort_ge (fun p : Star × Nat => p.2) _
  · intro s h1 c hc
    obtain ⟨-, rfl, -, hmc⟩ := (mem_stats_by_director db 2 s c).mp hc
    rw [h1] at hmc
    omega
  · intro s hs h1
    exact (mem_stats_by_director db 0 s _).mpr ⟨hs, rfl, h1, Nat.zero_le _⟩

/-- C7 witness: at the concrete store Nolan directs one film, so Nolan
appears with count one under min_count zero and is excluded under
min_count two. -/
theorem C7_stats_by_director_witness :
    (nolan, directedCount scenarioDB nolan) ∈
      get_stats_movie_by_director scenarioDB 0 ∧
    (nolan, 1) ∉ get_stats_movie_by_director scenarioDB 2 := by
  have h := C7_stats_by_director scenarioDB 0
  exact ⟨h.2.2.2 nolan (by decide) (by decide),
    h.2.2.1 nolan (by decide) 1⟩

/-! ## Claim C8 -/

theorem length_split_option {α β : Type} (f : α → Option β) :
    ∀ l : List α, l.length =
      (l.filter (fun a => (f a).isNone)).length + (l.filterMap f).length := by
  intro l
  induction l with
  | nil => simp
  | cons a t ih =>
    cases h : f a with
    | none =>
      rw [List.length_cons, List.filter_cons, List.filterMap_cons, h]
      simp only [Option.isNone_none, if_true, List.length_cons]
      omega
    | some b =>
      rw [List.length_cons, List.filter_cons, List.filterMap_cons, h]
      simp only [Option.isNone_some, Bool.false_eq_true, if_false,
        List.length_cons]
      omega

theorem movieYears_mem (db : DB) (y : Int) :
    y ∈ movieYears db ↔ ∃ m ∈ db.movies, m.year = y := by
  unfold movieYears
  rw [List.mem_insertionSort, List.mem_dedup, List.mem_map]

theorem movieYears_sorted (db : DB) :
    (movieYears db).Pairwise (fun a b => a < b) := by
  have h1 : (movieYears db).Pairwise (fun a b : Int => a ≤ b) :=
    pairwise_sort_le (fun x : Int => x)
      ((db.movies.map (fun m : Movie => m.year)).dedup)
  have h2 : (movieYears db).Nodup := by
    unfold movieYears
    exact (List.perm_insertionSort _ _).nodup_iff.mpr (List.nodup_dedup _)
  exact (h1.and h2).imp (fun hab => lt_of_le_of_ne hab.1 hab.2)

theorem stats_counts_sum (db : DB) :
    ((get_movies_stats_by_year db).map (fun e => e.2.1)).sum =
      get_movies_count db := by
  unfold get_movies_stats_by_year get_movies_count
  rw [List.map_map]
  have hfun : ((fun e : Int × Nat × Option Nat × Option Nat × Option Rat =>
      e.2.1) ∘ yearStats db) =
      fun y => (db.movies.filter (fun m => m.year == y)).length := rfl
  rw [hfun]
  have hperm : ((movieYears db).map
      (fun y => (db.movies.filter (fun m => m.year == y)).length)).Perm
      (((db.movies.map (fun m => m.year)).dedup).map
        (fun y => (db.movies.filter (fun m => m.year == y)).length)) :=
    (List.perm_insertionSort _ _).map _
  rw [hperm.sum_eq]
  have hcount : ∀ y ∈ (db.movies.map (fun m => m.year)).dedup,
      (db.movies.filter (fun m => m.year == y)).length =
        (db.movies.map (fun m => m.year)).count y := by
    intro y _
    rw [← List.countP_eq_length_filter, List.count_eq_countP,
      List.countP_map]
    rfl
  rw [List.map_congr_left hcount, List.sum_map_count_dedup_eq_length,
    List.length_map]

/-- C8: the group counts of the per-year duration statistics sum to the
total film count; the result has one entry per distinct stored year, in
strictly ascending year order; each group count is the full row count of
its year, also splitting as the null-duration rows plus the non-null
durations; and the minimum, maximum and average aggregates range over the
non-null durations only, the average being null exactly for an all-null
group and otherwise multiplying back to the duration sum. -/
theorem C8_duration_stats (db : DB) :
    (((get_movies_stats_by_year db).map (fun e => e.2.1)).sum =
      get_movies_count db) ∧
    ((get_movies_stats_by_year db).map (fun e => e.1)).Pairwise
      (fun a b => a < b) ∧
    (∀ y, (∃ e ∈ get_movies_stats_by_year db, e.1 = y) ↔
      ∃ m ∈ db.movies, m.year = y) ∧
    (∀ y c mn mx av, (y, c, mn, mx, av) ∈ get_movies_stats_by_year db →
      c = (db.movies.filter (fun m => m.year == y)).length ∧
      c = ((db.movies.filter (fun m => m.year == y)).filter
            (fun m => m.duration.isNone)).length +
          (durationsOfYear db y).length ∧
      mn = (durationsOfYear db y).min? ∧
      mx = (durationsOfYear db y).max? ∧
      (av = none ↔ durationsOfYear db y = []) ∧
      (∀ q, av = some q →
        q * ((durationsOfYear db y).length : Rat) =
          ((durationsOfYear db y).sum : Rat))) := by
  refine ⟨stats_counts_sum db, ?_, ?_, ?_⟩
  · have hyears : (get_movies_stats_by_year db).map (fun e => e.1) =
        movieYears db := by
      unfold get_movies_stats_by_year
      rw [List.map_map]
      have hfun : ((fun e : Int × Nat × Option Nat × Option Nat ×
          Option Rat => e.1) ∘ yearStats db) = fun y : Int => y := rfl
      rw [hfun]
      exact List.map_id' _
    rw [hyears]
    exact movieYears_sorted db
  · intro y
    constructor
    · rintro ⟨e, he, rfl⟩
      obtain ⟨y0, hy0, rfl⟩ := List.mem_map.mp he
      exact (movieYears_mem db y0).mp hy0
    · rintro ⟨m, hm, hy⟩
      exact ⟨yearStats db y,
        List.mem_map.mpr ⟨y, (movieYears_mem db y).mpr ⟨m, hm, hy⟩, rfl⟩, rfl⟩
  · intro y c mn mx av hmem
    obtain ⟨y0, hy0, heq⟩ := List.mem_map.mp hmem
    have h1 : yearStats db y0 =
        (y0, (db.movies.filter (fun m => m.year == y0)).length,
          (durationsOfYear db y0).min?, (durationsOfYear db y0).max?,
          if (durationsOfYear db y0).isEmpty then none
          else some (((durationsOfYear db y0).sum : Rat) /
            ((durationsOfYear db y0).length : Rat))) := rfl
    rw [h1] at heq
    simp only [Prod.mk.injEq] at heq
    obtain ⟨rfl, rfl, rfl, rfl, rfl⟩ := heq
    refine ⟨rfl, ?_, rfl, rfl, ?_, ?_⟩
    · exact length_split_option (fun m => m.duration)
        (db.movies.filter (fun m => m.year == y0))
    · cases hd : durationsOfYear db y0 with
      | nil => simp
      | cons a l => simp
    · intro q hq
      cases hd : durationsOfYear db y0 with
      | nil =>
        rw [hd] at hq
        simp at hq
      | cons a l =>
        rw [hd] at hq
        simp only [List.isEmpty_cons, Bool.false_eq_true, if_false,
          Option.some.injEq] at hq
        rw [← hq]
        refine div_mul_cancel₀ _ ?_
        have hpos : 0 < (a :: l).length := Nat.succ_pos _
        exact_mod_cast Nat.pos_iff_ne_zero.mp hpos

/-- store with a single film of year 2001 and no duration set. -/
def statsDB : DB := ⟨[⟨3, "C", 2001, none, none⟩], [], []⟩

/-- C8 witness: at a concrete store whose one film has a null duration, the
2001 group counts one film although its duration list is empty, so the
count includes the null-duration row while the average is null. -/
theorem C8_duration_stats_witness :
    (1 : Nat) =
      (statsDB.movies.filter (fun m => m.year == (2001 : Int))).length ∧
    durationsOfYear statsDB 2001 = [] := by
  have h := (C8_duration_stats statsDB).2.2.2 2001 1 none none none
    (by decide)
  exact ⟨h.1, h.2.2.2.2.1.mp rfl⟩

end MovieCatalog
